import Mathlib

/-!
Verification of the zhinst-toolkit connection wrapper
(`zhinst/toolkit/control/connection.py`).

The module under study is a thin adapter over the vendor data-server SDK:
it establishes a session, tracks the AWG sub-module's addressing state
(`device`/`index`), translates the simplified per-device node addressing
scheme into the vendor's global node-tree addressing scheme, and reshapes
the dictionaries returned by the vendor `get`/`getSample` calls.

Modelling conventions:
* Python strings are `List Char`; `str.lower()` is `List.map lowerChar`
  (ASCII lowering, as used on the ASCII node-path strings).
* Python substring tests (`x in s`) are `List.IsInfix` (notation `<:+:`).
* Python exceptions are an `Except RunError` result: `RunError.zhtk` is the
  library's own `ZHTKConnectionException`, `RunError.pyerr` any other
  uncaught Python error (`IndexError`, `TypeError`, `AttributeError`).
* Vendor calls (`daq.set`, `daq.get`, `daq.getSample`, `daq.listNodesJSON`)
  are uninterpreted response functions supplied as parameters.
-/

namespace ZhinstToolkit

/-- Convert a Lean string literal to the `List Char` representation used for
Python strings throughout this development. -/
def chars (s : String) : List Char := s.data

/-- ASCII lowercase of one character, modelling Python `str.lower()` on the
ASCII node-path strings handled by the wrapper: codepoints 65-90 (`A`-`Z`)
are shifted by 32, everything else is unchanged. -/
def lowerChar (c : Char) : Char :=
  if 65 ≤ c.toNat ∧ c.toNat ≤ 90 then Char.ofNat (c.toNat + 32) else c

/-- Outcome of a Python-level failure: `zhtk` is the wrapper's own
`ZHTKConnectionException`, `pyerr` any other uncaught Python exception
(`IndexError`, `TypeError`, `AttributeError`). -/
inductive RunError where
  | zhtk
  | pyerr
deriving DecidableEq, Repr

/-- Model of the vendor `zi.ziDAQServer` object as seen by `ZIConnection`:
the four wrapped methods are uninterpreted functions from arguments to
results (`α` the argument tuple type, `β` the result type). -/
structure Daq (α β : Type) where
  setF : α → β
  getF : α → β
  getSampleF : α → β
  listNodesJSONF : α → β

/-- Embedding of `ZIConnection` (connection.py lines 20-168): the internal
daq handle `self._daq` is `None` until a connection is established. -/
structure ZIConnection (α β : Type) where
  daq : Option (Daq α β)

namespace ZIConnection

/-- Embedding of the `ZIConnection.established` property (lines 79-81):
`self._daq is not None`. -/
def established (c : ZIConnection α β) : Bool := c.daq.isSome

/-- Embedding of `ZIConnection.set` (lines 105-119): raise if the connection
is not established, otherwise return `self._daq.set(*args)`. -/
def set (c : ZIConnection α β) (args : α) : Except RunError β :=
  match c.daq with
  | none => .error .zhtk
  | some d => .ok (d.setF args)

/-- Embedding of `ZIConnection.get` (lines 121-135). -/
def get (c : ZIConnection α β) (args : α) : Except RunError β :=
  match c.daq with
  | none => .error .zhtk
  | some d => .ok (d.getF args)

/-- Embedding of `ZIConnection.get_sample` (lines 137-152). -/
def get_sample (c : ZIConnection α β) (args : α) : Except RunError β :=
  match c.daq with
  | none => .error .zhtk
  | some d => .ok (d.getSampleF args)

/-- Embedding of `ZIConnection.list_nodes` (lines 154-168). -/
def list_nodes (c : ZIConnection α β) (args : α) : Except RunError β :=
  match c.daq with
  | none => .error .zhtk
  | some d => .ok (d.listNodesJSONF args)

/-- Effects that `ZIConnection.connect_device` would produce on success: the
vendor `daq.connectDevice(serial, interface)` call and the subsequent
`self._awg.update(device=serial, index=0)`. -/
inductive ConnectEffect where
  | connectDevice (serial interface : List Char)
  | awgUpdate (device : List Char) (index : Int)
deriving DecidableEq, Repr

/-- Embedding of `ZIConnection.connect_device` (connection.py lines 83-103).
When there is no daq handle a `ZHTKConnectionException` is raised.  The
second guard is the code's own `if not any(k is None for k in [serial,
interface])`, which raises precisely when both arguments are present.  When
an argument is `None` the code falls through to `daq.connectDevice` and
then crashes with an `AttributeError` at `serial.upper()` or
`interface.upper()` (modelled as `pyerr`); the final branch mirrors the
success path of the source (vendor call plus AWG-module update), which is
unreachable. -/
def connect_device (c : ZIConnection α β) (serial interface : Option (List Char)) :
    Except RunError (List ConnectEffect) :=
  match c.daq with
  | none => .error .zhtk
  | some _ =>
    if ¬ (serial = none ∨ interface = none) then .error .zhtk
    else
      match serial, interface with
      | some s, some i => .ok [.connectDevice s i, .awgUpdate s 0]
      | _, _ => .error .pyerr

end ZIConnection

namespace AWGModule

/-- A write issued to the underlying vendor awg module: either
`self._awgModule.set("/device", d)` or `self._awgModule.set("/index", i)`.
Writes to other module parameters made by the `AWGModule.set` pass-through
do not touch the addressing state and are outside this log. -/
inductive AWGWrite where
  | dev (d : List Char)
  | idx (i : Int)
deriving DecidableEq, Repr

/-- State of `ZIConnection.AWGModule` (connection.py lines 170-235): the
cached `_device` and `_index` attributes, together with the log of
`/device` and `/index` writes issued to the underlying vendor module since
construction (oldest first). -/
structure AWGState where
  device : List Char
  index : Int
  writes : List AWGWrite
deriving DecidableEq, Repr

/-- State right after `AWGModule.__init__` (lines 178-182): `_device` and
`_index` are read back from the freshly executed vendor module, and no
write has been issued yet. -/
def init (d0 : List Char) (i0 : Int) : AWGState :=
  { device := d0, index := i0, writes := [] }

/-- Embedding of `AWGModule._update_index` (lines 224-227): write `/index`
and update the cache only when the new value differs. -/
def update_index (s : AWGState) (i : Int) : AWGState :=
  if i ≠ s.index then
    { s with writes := s.writes ++ [.idx i], index := i }
  else s

/-- Embedding of `AWGModule._update_device` (lines 216-222): when the device
changes, first set the index to 0, then write `/device` and update the
cache. -/
def update_device (s : AWGState) (d : List Char) : AWGState :=
  if d ≠ s.device then
    let s := update_index s 0
    { s with writes := s.writes ++ [.dev d], device := d }
  else s

/-- Embedding of `AWGModule.update` (lines 204-214): the `device` keyword is
handled first (when present), then the `index` keyword (when present). -/
def update (s : AWGState) (dev? : Option (List Char)) (idx? : Option Int) : AWGState :=
  let s := match dev? with
    | some d => update_device s d
    | none => s
  match idx? with
  | some i => update_index s i
  | none => s

/-- One call on the module: `update`, `set`, `get`, `get_int`, `get_double`
and `get_string` (lines 184-214) all feed their keyword arguments through
`update` before the vendor pass-through, so they act identically on the
addressing state. -/
structure AWGCall where
  dev? : Option (List Char)
  idx? : Option Int
deriving DecidableEq, Repr

/-- Run a sequence of `update`/`set`/`get` calls against the module state. -/
def runCalls (s : AWGState) : List AWGCall → AWGState
  | [] => s
  | c :: rest => runCalls (update s c.dev? c.idx?) rest

/-- Replay a write log against the vendor module's own `/device` and
`/index` parameters, starting from their initial values. -/
def replayState (d : List Char) (i : Int) : List AWGWrite → List Char × Int
  | [] => (d, i)
  | .dev d' :: rest => replayState d' i rest
  | .idx i' :: rest => replayState d i' rest

/-- Check of a write log against the module parameters it is replayed on:
every write changes the parameter it writes (nothing redundant is sent),
and every `/device` write happens while `/index` is 0. -/
def replayOk (d : List Char) (i : Int) : List AWGWrite → Bool
  | [] => true
  | .dev d' :: rest => decide (d' ≠ d) && decide (i = 0) && replayOk d' i rest
  | .idx i' :: rest => decide (i' ≠ i) && replayOk d i' rest

/-- The cached addressing state agrees with the result of replaying the
write log on the vendor module, and the log is non-redundant with `/index`
zeroed ahead of every `/device` write. -/
def consistent (d0 : List Char) (i0 : Int) (s : AWGState) : Prop :=
  replayOk d0 i0 s.writes = true ∧ replayState d0 i0 s.writes = (s.device, s.index)

end AWGModule

namespace DeviceConnection

/-- Embedding of `DeviceConnection._command_to_node` (connection.py lines
450-470).  The command is lowercased; `command[0]` is read unconditionally,
so an empty command is an `IndexError` (modelled as `none`); a `/` is
prepended when the first character is not `/`; finally `/{serial}` is
prepended unless `/zi/` or the serial already occurs in the command. -/
def command_to_node (serial command : List Char) : Option (List Char) :=
  let command := command.map lowerChar
  match command with
  | [] => none
  | c0 :: cs =>
    let command := if c0 ≠ '/' then '/' :: (c0 :: cs) else c0 :: cs
    let command :=
      if ¬ ((chars ("/zi/")) <:+: command) then
        if ¬ (serial <:+: command) then '/' :: (serial ++ command) else command
      else command
    some command

/-- The translation as described by the specification: the command is
lowercased, a `/` is prepended when the lowercased command does not already
start with `/`, and `/{serial}` is prepended unless the command contains
`/zi/` or already contains the device serial.  (The empty command, on which
the code fails, is mapped to `none` so that both functions are total.) -/
def command_to_node_described (serial command : List Char) : Option (List Char) :=
  if command = [] then none
  else
    let lowered := command.map lowerChar
    let slashed := if lowered.head? = some '/' then lowered else '/' :: lowered
    if (chars ("/zi/")) <:+: slashed ∨ serial <:+: slashed then some slashed
    else some ('/' :: (serial ++ slashed))

/-- Fuel-driven scan for `removeAll`: Python's `str.replace(pat, "")` walks
the string left to right, removing each non-overlapping occurrence of the
pattern.  The fuel is the length of the string, which always suffices
because each step consumes at least one character; it only exists to make
the recursion structural. -/
def removeAllF (pat : List Char) : Nat → List Char → List Char
  | 0, s => s
  | _ + 1, [] => []
  | fuel + 1, c :: rest =>
    if pat ≠ [] ∧ pat <+: (c :: rest) then
      removeAllF pat fuel ((c :: rest).drop pat.length)
    else c :: removeAllF pat fuel rest

/-- Model of Python `key.replace(pat, "")`: remove every non-overlapping
occurrence of `pat` from the string, scanning left to right.  (Replacing
the empty pattern by the empty string is the identity, as in Python.) -/
def removeAll (pat s : List Char) : List Char := removeAllF pat s.length s

/-- One value of the dictionary returned by the vendor `daq.get`: the fields
of interest are the optional `value` entry (a list whose first element is
taken) and the optional `vector` entry. -/
structure EntryDict (α : Type) where
  value : Option (List α)
  vector : Option α
deriving DecidableEq, Repr

/-- A raw entry of the vendor dictionary: either a dict directly, or a list
of dicts of which the code takes the first element (`data_dict[0]`, an
`IndexError` when the list is empty). -/
inductive ApiEntry (α : Type) where
  | single (d : EntryDict α)
  | multi (l : List (EntryDict α))
deriving DecidableEq, Repr

/-- The value returned by the vendor `daq.get`: either not a dict at all, or
a dict of node-path/entry pairs (insertion order preserved, keys unique). -/
inductive ApiData (α : Type) where
  | notDict
  | dict (entries : List (List Char × ApiEntry α))
deriving DecidableEq, Repr

def entriesOf : ApiData α → List (List Char × ApiEntry α)
  | .notDict => []
  | .dict entries => entries

/-- Embedding of `if isinstance(data_dict, list): data_dict = data_dict[0]`
(lines 392-393). -/
def resolveEntry : ApiEntry α → Except RunError (EntryDict α)
  | .single d => .ok d
  | .multi [] => .error .pyerr
  | .multi (d :: _) => .ok d

/-- Python dict assignment `m[k] = v` on an insertion-ordered dictionary:
an existing key keeps its position and gets the new value. -/
def dinsert (m : List (List Char × α)) (k : List Char) (v : α) : List (List Char × α) :=
  match m with
  | [] => [(k, v)]
  | (k', v') :: rest => if k' = k then (k, v) :: rest else (k', v') :: dinsert rest k v

/-- The loop body of `DeviceConnection._get_value_from_dict` (lines
390-397): for each key, strip `/{serial}/`, resolve a list entry to its
first element, then store `data_dict["value"][0]` when a `value` key is
present (an `IndexError` when that list is empty) and `data_dict["vector"]`
when a `vector` key is present (the latter assignment overwrites the
former). -/
def gvfd_go (serial : List Char) :
    List (List Char × ApiEntry α) → List (List Char × α) →
    Except RunError (List (List Char × α))
  | [], acc => .ok acc
  | (k, e) :: rest, acc =>
    match resolveEntry e with
    | .error er => .error er
    | .ok ed =>
      let key := removeAll ('/' :: (serial ++ ['/'])) k
      match ed.value with
      | some [] => .error .pyerr
      | some (v :: _) =>
        (match ed.vector with
          | some w => gvfd_go serial rest (dinsert (dinsert acc key v) key w)
          | none => gvfd_go serial rest (dinsert acc key v))
      | none =>
        match ed.vector with
        | some w => gvfd_go serial rest (dinsert acc key w)
        | none => gvfd_go serial rest acc

/-- Embedding of `DeviceConnection._get_value_from_dict` (lines 369-398):
raise `ZHTKConnectionException` when the argument is not a dict or is an
empty dict, otherwise reshape it with the loop above starting from an empty
result dictionary. -/
def get_value_from_dict (serial : List Char) (data : ApiData α) :
    Except RunError (List (List Char × α)) :=
  match data with
  | .notDict => .error .zhtk
  | .dict [] => .error .zhtk
  | .dict entries => gvfd_go serial entries []

/-- The relation between an output pair of the reshaped dictionary and the
vendor data it came from: some input entry has the output key as its
serial-stripped key, and the output value is that entry's `value[0]` or its
`vector`. -/
def goodPair (serial : List Char) (entries : List (List Char × ApiEntry α))
    (p : List Char × α) : Prop :=
  ∃ k e ed, (k, e) ∈ entries ∧ resolveEntry e = .ok ed ∧
    p.1 = removeAll ('/' :: (serial ++ ['/'])) k ∧
    ((∃ t, ed.value = some (p.2 :: t)) ∨ ed.vector = some p.2)

/-- A Python value as handled by `DeviceConnection.set`: a string, a
primitive non-sequence value (no `len()`), or a tuple/list of values. -/
inductive PyVal (α : Type) where
  | str (s : List Char)
  | prim (v : α)
  | tuple (elems : List (PyVal α))

/-- Python `len(x)` for the modelled values: strings and tuples/lists have a
length, primitives raise `TypeError`. -/
def pyLen : PyVal α → Option Nat
  | .str s => some s.length
  | .prim _ => none
  | .tuple elems => some elems.length

/-- Embedding of `DeviceConnection._commands_to_node` (connection.py lines
421-448): each settings element must have `len(args) == 2` (a missing
`len` is a `TypeError`, caught and re-raised as `ZHTKConnectionException`,
as is a wrong length); `args[0]` is translated with `_command_to_node`
(an `AttributeError` when it is not a string, an `IndexError` when it is
empty) and paired with `args[1]`. -/
def commands_to_node (serial : List Char) :
    List (PyVal α) → Except RunError (List (List Char × PyVal α))
  | [] => .ok []
  | item :: rest =>
    match item with
    | .prim _ => .error .zhtk
    | .tuple elems =>
      match elems with
      | [x, y] =>
        (match x with
          | .str c =>
            (match command_to_node serial c with
              | none => .error .pyerr
              | some node =>
                match commands_to_node serial rest with
                | .error er => .error er
                | .ok tail => .ok ((node, y) :: tail))
          | _ => .error .pyerr)
      | _ => .error .zhtk
    | .str s =>
      match s with
      | [c1, c2] =>
        (match command_to_node serial [c1] with
          | none => .error .pyerr
          | some node =>
            match commands_to_node serial rest with
            | .error er => .error er
            | .ok tail => .ok ((node, PyVal.str [c2]) :: tail))
      | _ => .error .zhtk

/-- Embedding of `DeviceConnection.set` (connection.py lines 296-310): two
positional arguments become the single pair `[(args[0], args[1])]`, one
positional argument is taken as the settings sequence itself (iterating a
string yields its one-character substrings, iterating a primitive is an
uncaught `TypeError`), and any other count raises
`ZHTKConnectionException`.  The value returned is the translated settings
list that the code passes on to `ZIConnection.set`. -/
def set (serial : List Char) (args : List (PyVal α)) :
    Except RunError (List (List Char × PyVal α)) :=
  match args with
  | [a, b] => commands_to_node serial [PyVal.tuple [a, b]]
  | [a] =>
    (match a with
      | .tuple items => commands_to_node serial items
      | .str s => commands_to_node serial (s.map fun c => PyVal.str [c])
      | .prim _ => .error .pyerr)
  | _ => .error .zhtk

/-- The device-type enumeration of `zhinst.toolkit.interface.DeviceTypes`;
only membership in `[DeviceTypes.UHFLI, DeviceTypes.MFLI]` is inspected by
the code under study, the remaining constructors stand for the other
supported instrument types. -/
inductive DeviceTypes where
  | HDAWG
  | UHFQA
  | UHFLI
  | MFLI
  | PQSC
deriving DecidableEq, Repr

/-- The part of the associated `BaseInstrument` that `DeviceConnection`
reads: its serial and its device type. -/
structure Device where
  serial : List Char
  device_type : DeviceTypes
deriving DecidableEq, Repr

/-- A complex number with rational components, modelling the Python complex
value built by `_get_value_from_streamingnode`. -/
structure GaussianQ where
  re : ℚ
  im : ℚ
deriving DecidableEq, Repr

/-- Embed a real sample component. -/
def GaussianQ.ofRat (x : ℚ) : GaussianQ := ⟨x, 0⟩

def GaussianQ.add (a b : GaussianQ) : GaussianQ := ⟨a.re + b.re, a.im + b.im⟩

def GaussianQ.mul (a b : GaussianQ) : GaussianQ :=
  ⟨a.re * b.re - a.im * b.im, a.re * b.im + a.im * b.re⟩

/-- The Python imaginary unit `1j`. -/
def GaussianQ.jay : GaussianQ := ⟨0, 1⟩

/-- The value returned by the vendor `daq.getSample`: either not a dict, or
a dict whose entries (for example `x` and `y`) hold arrays of samples. -/
inductive SampleData where
  | notDict
  | dict (entries : List (List Char × List ℚ))
deriving DecidableEq, Repr

/-- First-match lookup in an insertion-ordered dictionary (Python dict keys
are unique, so this is plain dict access). -/
def lookupD {κ ν : Type} [DecidableEq κ] : List (κ × ν) → κ → Option ν
  | [], _ => none
  | (k, v) :: rest, key => if k = key then some v else lookupD rest key

/-- Embedding of `DeviceConnection._get_value_from_streamingnode` (lines
400-419): raise `ZHTKConnectionException` when the data is not a dict, is
empty, or lacks an `x` or `y` key; otherwise return
`data["x"][0] + 1j * data["y"][0]` (an `IndexError` when either array is
empty). -/
def get_value_from_streamingnode (data : SampleData) : Except RunError GaussianQ :=
  match data with
  | .notDict => .error .zhtk
  | .dict [] => .error .zhtk
  | .dict entries =>
    match lookupD entries (chars ("x")), lookupD entries (chars ("y")) with
    | some xs, some ys =>
      (match xs with
        | [] => .error .pyerr
        | x :: _ =>
          match ys with
          | [] => .error .pyerr
          | y :: _ =>
            .ok (GaussianQ.add (GaussianQ.ofRat x)
              (GaussianQ.mul GaussianQ.jay (GaussianQ.ofRat y))))
    | _, _ => .error .zhtk

/-- The `command` argument of `DeviceConnection.get`: a node string, a list
of node strings, or any other Python value (which raises
`ZHTKConnectionException`, "Invalid argument!"). -/
inductive GetCmd where
  | str (s : List Char)
  | list (cmds : List (List Char))
  | other
deriving DecidableEq, Repr

/-- The result of a successful `DeviceConnection.get`: a complex streaming
sample, a bare value, a list of values, or the reshaped dictionary. -/
inductive GetResult (α : Type) where
  | complex (z : GaussianQ)
  | value (v : α)
  | values (vs : List α)
  | dict (m : List (List Char × α))
deriving DecidableEq, Repr

/-- The data-server connection as seen by `DeviceConnection.get`: whether it
is established, and the vendor responses to `daq.getSample` and `daq.get`
on a node string (uninterpreted response functions). -/
structure DConn (α : Type) where
  established : Bool
  sampleResp : List Char → SampleData
  getResp : List Char → ApiData α

/-- `ZIConnection.get_sample` as used by `DeviceConnection.get`: raise when
the connection is not established, otherwise the vendor response. -/
def DConn.get_sample (c : DConn α) (node : List Char) : Except RunError SampleData :=
  if c.established then .ok (c.sampleResp node) else .error .zhtk

/-- `ZIConnection.get` as used by `DeviceConnection.get` (the
`settingsonly=False, flat=True` keyword arguments only shape the vendor
response, which is uninterpreted here). -/
def DConn.getData (c : DConn α) (node : List Char) : Except RunError (ApiData α) :=
  if c.established then .ok (c.getResp node) else .error .zhtk

/-- The loop of `DeviceConnection.get` over a list command (lines 328-331):
each element is translated with `_command_to_node`. -/
def nodesOf (serial : List Char) : List (List Char) → Except RunError (List (List Char))
  | [] => .ok []
  | c :: rest =>
    match command_to_node serial c with
    | none => .error .pyerr
    | some n =>
      match nodesOf serial rest with
      | .error er => .error er
      | .ok tail => .ok (n :: tail)

/-- Construction of `node_string` in `DeviceConnection.get` (lines 327-336):
a list command is translated element-wise and joined with `", "`, a string
command is translated directly, and any other command raises
`ZHTKConnectionException` ("Invalid argument!"). -/
def nodeStringOf (serial : List Char) : GetCmd → Except RunError (List Char)
  | .list cmds =>
    (match nodesOf serial cmds with
      | .error er => .error er
      | .ok paths => .ok (List.intercalate (chars (", ")) paths))
  | .str s =>
    (match command_to_node serial s with
      | none => .error .pyerr
      | some n => .ok n)
  | .other => .error .zhtk

/-- The streaming-node condition of `DeviceConnection.get` (lines 337-340):
`self._device.device_type in [DeviceTypes.UHFLI, DeviceTypes.MFLI] and
"sample" in command.lower()`.  The `and` short-circuits, so
`command.lower()` — an `AttributeError` on a list command — is only
evaluated for UHFLI/MFLI devices. -/
def streamCheckOf (dev : Device) (cmd : GetCmd) : Except RunError Bool :=
  if dev.device_type = DeviceTypes.UHFLI ∨ dev.device_type = DeviceTypes.MFLI then
    match cmd with
    | .str s => .ok (decide ((chars ("sample")) <:+: s.map lowerChar))
    | _ => .error .pyerr
  else .ok false

/-- Embedding of `DeviceConnection.get` (connection.py lines 312-354): build
the node string, fetch through `getSample` for streaming nodes on
UHFLI/MFLI devices and reshape with `_get_value_from_streamingnode`,
otherwise fetch through `get` and reshape with `_get_value_from_dict`;
with `valueonly=True` return the bare value of a single-entry result (an
`IndexError` on an empty one) or the list of values of a multi-entry
result, and with `valueonly=False` the reshaped dictionary.  The associated
device is present (the code raises `ZHTKConnectionException` when it is
`None`). -/
def get (dev : Device) (conn : DConn α) (command : GetCmd) (valueonly : Bool) :
    Except RunError (GetResult α) :=
  match nodeStringOf dev.serial command with
  | .error er => .error er
  | .ok node =>
    match streamCheckOf dev command with
    | .error er => .error er
    | .ok streaming =>
      if streaming then
        match DConn.get_sample conn node with
        | .error er => .error er
        | .ok data =>
          match get_value_from_streamingnode data with
          | .error er => .error er
          | .ok z => .ok (GetResult.complex z)
      else
        match DConn.getData conn node with
        | .error er => .error er
        | .ok data =>
          match get_value_from_dict dev.serial data with
          | .error er => .error er
          | .ok d =>
            if valueonly then
              if 1 < d.length then .ok (GetResult.values (d.map Prod.snd))
              else
                match d with
                | [] => .error .pyerr
                | p :: _ => .ok (GetResult.value p.2)
            else .ok (GetResult.dict d)

end DeviceConnection

theorem toNat_ofNat_valid (n : Nat) (h : n < 55296) : (Char.ofNat n).toNat = n := by
  unfold Char.ofNat
  rw [dif_pos (Or.inl h)]
  simp [Char.ofNatAux, Char.toNat, UInt32.toNat, BitVec.toNat_ofNatLt]

theorem lowerChar_idem (c : Char) : lowerChar (lowerChar c) = lowerChar c := by
  unfold lowerChar
  by_cases h : 65 ≤ c.toNat ∧ c.toNat ≤ 90
  · rw [if_pos h, if_neg]
    rw [toNat_ofNat_valid (c.toNat + 32) (by omega)]
    omega
  · rw [if_neg h, if_neg h]

theorem map_lowerChar_idem (l : List Char) :
    (l.map lowerChar).map lowerChar = l.map lowerChar := by
  rw [List.map_map]
  exact List.map_congr_left fun c _ => lowerChar_idem c

theorem lowerChar_slash : lowerChar '/' = '/' := by decide

namespace ZIConnection

theorem established_false_iff (c : ZIConnection α β) :
    c.established = false ↔ c.daq = none := by
  cases c with
  | mk daq => cases daq <;> simp [established]

/-- C1: each of `ZIConnection.set`, `get`, `get_sample` and `list_nodes`
raises `ZHTKConnectionException` when the connection is not established,
and otherwise returns exactly the value of the corresponding vendor method
(`daq.set`, `daq.get`, `daq.getSample`, `daq.listNodesJSON`) applied to the
same arguments, with no other transformation. -/
theorem wrapper_methods_pass_through {α β : Type} (c : ZIConnection α β) (args : α) :
    (c.established = false →
      c.set args = .error .zhtk ∧ c.get args = .error .zhtk ∧
      c.get_sample args = .error .zhtk ∧ c.list_nodes args = .error .zhtk) ∧
    (∀ d : Daq α β, c.daq = some d →
      c.set args = .ok (d.setF args) ∧ c.get args = .ok (d.getF args) ∧
      c.get_sample args = .ok (d.getSampleF args) ∧
      c.list_nodes args = .ok (d.listNodesJSONF args)) := by
  constructor
  · intro h
    rw [established_false_iff] at h
    simp [set, get, get_sample, list_nodes, h]
  · intro d hd
    simp [set, get, get_sample, list_nodes, hd]

theorem wrapper_methods_pass_through_witness :
    ((ZIConnection.mk none : ZIConnection Nat Nat).set 10 = .error .zhtk ∧
      (ZIConnection.mk none : ZIConnection Nat Nat).get 10 = .error .zhtk ∧
      (ZIConnection.mk none : ZIConnection Nat Nat).get_sample 10 = .error .zhtk ∧
      (ZIConnection.mk none : ZIConnection Nat Nat).list_nodes 10 = .error .zhtk) ∧
    ((ZIConnection.mk (some (Daq.mk (· + 1) (· + 2) (· + 3) (· + 4)))).set 10 = .ok 11 ∧
      (ZIConnection.mk (some (Daq.mk (· + 1) (· + 2) (· + 3) (· + 4)))).get 10 = .ok 12 ∧
      (ZIConnection.mk (some (Daq.mk (· + 1) (· + 2) (· + 3) (· + 4)))).get_sample 10 = .ok 13 ∧
      (ZIConnection.mk (some (Daq.mk (· + 1) (· + 2) (· + 3) (· + 4)))).list_nodes 10 = .ok 14) :=
  ⟨(wrapper_methods_pass_through (ZIConnection.mk none) 10).1 rfl,
   (wrapper_methods_pass_through
      (ZIConnection.mk (some (Daq.mk (· + 1) (· + 2) (· + 3) (· + 4)))) 10).2
      (Daq.mk (· + 1) (· + 2) (· + 3) (· + 4)) rfl⟩

/-- C3 (code slip, evaluated at the failing input): with an established
data-server connection and both a serial and an interface supplied,
`ZIConnection.connect_device` raises `ZHTKConnectionException` instead of
delegating to `daq.connectDevice` and updating the AWG module — the guard
`not any(k is None for k in [serial, interface])` fires exactly when both
arguments are present, inverting the documented intent ("the details of the
device (serial, interface) must be specified"). -/
theorem connect_device_rejects_complete_arguments :
    (ZIConnection.mk (some (Daq.mk id id id id)) : ZIConnection Nat Nat).connect_device
      (some (chars ("dev8030"))) (some (chars ("1gbe"))) = .error .zhtk := by
  rfl

end ZIConnection

namespace AWGModule

theorem replayState_append (d : List Char) (i : Int) (xs ys : List AWGWrite) :
    replayState d i (xs ++ ys) =
      replayState (replayState d i xs).1 (replayState d i xs).2 ys := by
  induction xs generalizing d i with
  | nil => rfl
  | cons x rest ih => cases x <;> simp [replayState, ih]

theorem replayOk_append (d : List Char) (i : Int) (xs ys : List AWGWrite) :
    replayOk d i (xs ++ ys) =
      (replayOk d i xs && replayOk (replayState d i xs).1 (replayState d i xs).2 ys) := by
  induction xs generalizing d i with
  | nil => rfl
  | cons x rest ih =>
    cases x <;> simp [replayOk, replayState, ih, Bool.and_assoc]

theorem update_index_device (s : AWGState) (i : Int) :
    (update_index s i).device = s.device := by
  unfold update_index
  split <;> rfl

theorem update_index_index (s : AWGState) (i : Int) :
    (update_index s i).index = i := by
  unfold update_index
  split
  · rfl
  · next h => exact (not_not.mp h).symm

theorem update_device_device (s : AWGState) (d : List Char) :
    (update_device s d).device = d := by
  unfold update_device
  split
  · rfl
  · next h => exact (not_not.mp h).symm

theorem update_device_index (s : AWGState) (d : List Char) (h : d ≠ s.device) :
    (update_device s d).index = 0 := by
  unfold update_device
  rw [if_pos h]
  exact update_index_index s 0

theorem update_index_consistent (d0 : List Char) (i0 : Int) (s : AWGState) (i : Int)
    (hc : consistent d0 i0 s) : consistent d0 i0 (update_index s i) := by
  obtain ⟨hok, hst⟩ := hc
  unfold update_index
  split
  · next h =>
    constructor
    · simp only [replayOk_append, hok, hst, Bool.true_and, replayOk]
      simp [h]
    · simp [replayState_append, hst, replayState]
  · exact ⟨hok, hst⟩

theorem update_device_consistent (d0 : List Char) (i0 : Int) (s : AWGState) (d : List Char)
    (hc : consistent d0 i0 s) : consistent d0 i0 (update_device s d) := by
  unfold update_device
  split
  · next h =>
    obtain ⟨hok, hst⟩ := update_index_consistent d0 i0 s 0 hc
    have hdev : (update_index s 0).device = s.device := update_index_device s 0
    have hidx : (update_index s 0).index = 0 := update_index_index s 0
    constructor
    · simp only [replayOk_append, hok, hst, Bool.true_and, replayOk]
      simp [hdev, hidx, h]
    · simp [replayState_append, hst, replayState]
  · exact hc

theorem update_consistent (d0 : List Char) (i0 : Int) (s : AWGState)
    (dev? : Option (List Char)) (idx? : Option Int)
    (hc : consistent d0 i0 s) : consistent d0 i0 (update s dev? idx?) := by
  unfold update
  cases dev? with
  | none =>
    cases idx? with
    | none => exact hc
    | some i => exact update_index_consistent d0 i0 s i hc
  | some d =>
    cases idx? with
    | none => exact update_device_consistent d0 i0 s d hc
    | some i =>
      exact update_index_consistent d0 i0 _ i (update_device_consistent d0 i0 s d hc)

/-- C5: the AWG module's cached addressing state stays consistent with the
underlying vendor module.  For every sequence of `update`/`set`/`get`
calls, the replayed write log agrees with the cached `_device`/`_index`,
every `/device` or `/index` write carries a value different from the cached
one at that moment, and `/index` is 0 whenever `/device` is written; and
after `update(device=d, index=i)` the `device` and `index` properties equal
`d` and `i` from any prior state. -/
theorem awg_state_consistent (d0 : List Char) (i0 : Int) (calls : List AWGCall)
    (s : AWGState) (d : List Char) (i : Int) :
    ((update s (some d) (some i)).device = d ∧ (update s (some d) (some i)).index = i) ∧
    consistent d0 i0 (runCalls (init d0 i0) calls) := by
  constructor
  · constructor
    · show (update_index (update_device s d) i).device = d
      rw [update_index_device, update_device_device]
    · exact update_index_index _ i
  · have hinit : consistent d0 i0 (init d0 i0) := ⟨rfl, rfl⟩
    have : ∀ (cs : List AWGCall) (t : AWGState),
        consistent d0 i0 t → consistent d0 i0 (runCalls t cs) := by
      intro cs
      induction cs with
      | nil => intro t ht; exact ht
      | cons c rest ih =>
        intro t ht
        exact ih _ (update_consistent d0 i0 t c.dev? c.idx? ht)
    exact this calls _ hinit

end AWGModule

namespace DeviceConnection

/-- C2: `DeviceConnection._command_to_node` returns the command lowercased,
with a `/` prepended when the lowercased command does not already start with
`/`, and with `/{device serial}` prepended unless the command contains the
substring `/zi/` or already contains the device serial — for every device
serial and every command string. -/
theorem command_to_node_matches_description (serial c : List Char) :
    command_to_node serial c = command_to_node_described serial c := by
  unfold command_to_node command_to_node_described
  cases c with
  | nil => rfl
  | cons a as =>
    simp only [List.map_cons, List.head?_cons, reduceCtorEq, if_neg (List.cons_ne_nil a as)]
    by_cases hslash : lowerChar a = '/'
    · simp only [hslash, ne_eq, not_true_eq_false, if_false, Option.some.injEq, if_true]
      by_cases hzi : (chars ("/zi/")) <:+: ('/' :: as.map lowerChar)
      · simp [hzi]
      · by_cases hser : serial <:+: ('/' :: as.map lowerChar)
        · simp [hzi, hser]
        · simp [hzi, hser]
    · simp only [ne_eq, hslash, not_false_eq_true, if_true, Option.some.injEq,
        if_neg (by simpa using hslash)]
      by_cases hzi : (chars ("/zi/")) <:+: ('/' :: lowerChar a :: as.map lowerChar)
      · simp [hzi]
      · by_cases hser : serial <:+: ('/' :: lowerChar a :: as.map lowerChar)
        · simp [hzi, hser]
        · simp [hzi, hser]

/-- C10: the translation is defined only for non-empty command strings (the
code reads `command[0]` unconditionally, an `IndexError` on the empty
string), and for every non-empty input the returned node string begins with
`/`. -/
theorem command_to_node_defined_iff_nonempty_and_starts_with_slash
    (serial c : List Char) :
    (command_to_node serial c = none ↔ c = []) ∧
    (∀ r, command_to_node serial c = some r → r.head? = some '/') := by
  unfold command_to_node
  cases c with
  | nil => simp
  | cons a as =>
    simp only [List.map_cons]
    by_cases hslash : lowerChar a = '/'
    · simp only [hslash, ne_eq, not_true_eq_false, if_false]
      by_cases hzi : (chars ("/zi/")) <:+: ('/' :: as.map lowerChar)
      · simp [hzi]
      · by_cases hser : serial <:+: ('/' :: as.map lowerChar)
        · simp [hzi, hser]
        · simp [hzi, hser]
    · simp only [ne_eq, hslash, not_false_eq_true, if_true]
      by_cases hzi : (chars ("/zi/")) <:+: ('/' :: lowerChar a :: as.map lowerChar)
      · simp [hzi]
      · by_cases hser : serial <:+: ('/' :: lowerChar a :: as.map lowerChar)
        · simp [hzi, hser]
        · simp [hzi, hser]

theorem command_to_node_defined_iff_nonempty_and_starts_with_slash_witness :
    command_to_node (chars ("dev8030")) [] = none ∧
    (chars ("/dev8030/sigouts/0/on")).head? = some '/' :=
  ⟨(command_to_node_defined_iff_nonempty_and_starts_with_slash
      (chars ("dev8030")) []).1.mpr rfl,
   (command_to_node_defined_iff_nonempty_and_starts_with_slash
      (chars ("dev8030")) (chars ("sigouts/0/on"))).2
      (chars ("/dev8030/sigouts/0/on")) (by decide)⟩

/-- C9 counterexample: with device serial `DEV8030` (not fixed by
lowercasing) the translation is not idempotent on the command `sigouts`:
one application yields `/DEV8030/sigouts`, a second application yields
`/DEV8030/dev8030/sigouts`. -/
theorem command_to_node_not_idempotent_uppercase_serial :
    ¬ ((command_to_node (chars ("DEV8030")) (chars ("sigouts"))).bind
        (command_to_node (chars ("DEV8030"))) =
      command_to_node (chars ("DEV8030")) (chars ("sigouts"))) := by decide

/-- Helper for the idempotence proof: a node string that already starts with
`/`, is unchanged by lowercasing, and contains `/zi/` or the serial, is a
fixed point of the translation. -/
theorem command_to_node_fixed (serial t : List Char)
    (hfix : ('/' :: t).map lowerChar = '/' :: t)
    (hcond : (chars ("/zi/")) <:+: ('/' :: t) ∨ serial <:+: ('/' :: t)) :
    command_to_node serial ('/' :: t) = some ('/' :: t) := by
  unfold command_to_node
  rw [hfix]
  simp only [ne_eq, not_true_eq_false, if_false]
  rcases hcond with hzi | hser
  · simp [hzi]
  · by_cases hzi : (chars ("/zi/")) <:+: ('/' :: t)
    · simp [hzi]
    · simp [hzi, hser]

/-- C9, amended: `DeviceConnection._command_to_node` is idempotent provided
the device serial is unchanged by lowercasing (in particular for the usual
all-lowercase serials such as `dev8030`): for every command string `c`,
translating the translation of `c` gives the translation of `c` again.  The
unamended claim fails for serials containing uppercase letters
(see the counterexample). -/
theorem command_to_node_idempotent_of_lowercase_serial (serial c : List Char)
    (hs : serial.map lowerChar = serial) :
    (command_to_node serial c).bind (command_to_node serial) =
      command_to_node serial c := by
  cases c with
  | nil => rfl
  | cons a as =>
    unfold command_to_node
    simp only [List.map_cons]
    by_cases hslash : lowerChar a = '/'
    · simp only [hslash, ne_eq, not_true_eq_false, if_false]
      have hfixA : ('/' :: as.map lowerChar).map lowerChar = '/' :: as.map lowerChar := by
        simp [lowerChar_slash, map_lowerChar_idem, lowerChar_idem]
      by_cases hzi : (chars ("/zi/")) <:+: ('/' :: as.map lowerChar)
      · simp only [hzi, not_true_eq_false, if_false]
        show command_to_node serial ('/' :: as.map lowerChar) = _
        exact command_to_node_fixed serial _ hfixA (Or.inl hzi)
      · by_cases hser : serial <:+: ('/' :: as.map lowerChar)
        · simp only [hzi, not_false_eq_true, if_true, hser, not_true_eq_false, if_false]
          show command_to_node serial ('/' :: as.map lowerChar) = _
          exact command_to_node_fixed serial _ hfixA (Or.inr hser)
        · simp only [hzi, not_false_eq_true, if_true, hser]
          show command_to_node serial ('/' :: (serial ++ '/' :: as.map lowerChar)) = _
          have hfixr : ('/' :: (serial ++ '/' :: as.map lowerChar)).map lowerChar =
              '/' :: (serial ++ '/' :: as.map lowerChar) := by
            simp [List.map_append, lowerChar_slash, hs, map_lowerChar_idem, lowerChar_idem]
          have hserr : serial <:+: ('/' :: (serial ++ '/' :: as.map lowerChar)) :=
            ⟨['/'], '/' :: as.map lowerChar, rfl⟩
          exact command_to_node_fixed serial _ hfixr (Or.inr hserr)
    · simp only [ne_eq, hslash, not_false_eq_true, if_true]
      have hfixA : ('/' :: lowerChar a :: as.map lowerChar).map lowerChar =
          '/' :: lowerChar a :: as.map lowerChar := by
        simp [lowerChar_slash, lowerChar_idem, map_lowerChar_idem]
      by_cases hzi : (chars ("/zi/")) <:+: ('/' :: lowerChar a :: as.map lowerChar)
      · simp only [hzi, not_true_eq_false, if_false]
        show command_to_node serial ('/' :: lowerChar a :: as.map lowerChar) = _
        exact command_to_node_fixed serial _ hfixA (Or.inl hzi)
      · by_cases hser : serial <:+: ('/' :: lowerChar a :: as.map lowerChar)
        · simp only [hzi, not_false_eq_true, if_true, hser, not_true_eq_false, if_false]
          show command_to_node serial ('/' :: lowerChar a :: as.map lowerChar) = _
          exact command_to_node_fixed serial _ hfixA (Or.inr hser)
        · simp only [hzi, not_false_eq_true, if_true, hser]
          show command_to_node serial
              ('/' :: (serial ++ '/' :: lowerChar a :: as.map lowerChar)) = _
          have hfixr : ('/' :: (serial ++ '/' :: lowerChar a :: as.map lowerChar)).map lowerChar =
              '/' :: (serial ++ '/' :: lowerChar a :: as.map lowerChar) := by
            simp [List.map_append, lowerChar_slash, hs, lowerChar_idem, map_lowerChar_idem]
          have hserr : serial <:+: ('/' :: (serial ++ '/' :: lowerChar a :: as.map lowerChar)) :=
            ⟨['/'], '/' :: lowerChar a :: as.map lowerChar, rfl⟩
          exact command_to_node_fixed serial _ hfixr (Or.inr hserr)

theorem command_to_node_idempotent_of_lowercase_serial_witness :
    (command_to_node (chars ("dev8030")) (chars ("sigouts/0/on"))).bind
      (command_to_node (chars ("dev8030"))) =
    command_to_node (chars ("dev8030")) (chars ("sigouts/0/on")) :=
  command_to_node_idempotent_of_lowercase_serial (chars ("dev8030"))
    (chars ("sigouts/0/on")) (by decide)

theorem dinsert_mem {α : Type} (acc : List (List Char × α)) (k : List Char) (v : α)
    (p : List Char × α) (hp : p ∈ dinsert acc k v) : p = (k, v) ∨ p ∈ acc := by
  induction acc with
  | nil => simpa [dinsert] using hp
  | cons q rest ih =>
    obtain ⟨k', v'⟩ := q
    by_cases hk : k' = k
    · rw [dinsert, if_pos hk] at hp
      rcases List.mem_cons.mp hp with h | h
      · exact Or.inl h
      · exact Or.inr (List.mem_cons_of_mem _ h)
    · rw [dinsert, if_neg hk] at hp
      rcases List.mem_cons.mp hp with h | h
      · exact Or.inr (h ▸ List.mem_cons_self _ _)
      · rcases ih h with h' | h'
        · exact Or.inl h'
        · exact Or.inr (List.mem_cons_of_mem _ h')

theorem goodPair_cons {α : Type} (serial : List Char) (q : List Char × ApiEntry α)
    (entries : List (List Char × ApiEntry α)) (p : List Char × α)
    (h : goodPair serial entries p) : goodPair serial (q :: entries) p := by
  obtain ⟨k, e, ed, hmem, hres, hkey, hval⟩ := h
  exact ⟨k, e, ed, List.mem_cons_of_mem _ hmem, hres, hkey, hval⟩

theorem gvfd_go_ne_zhtk (serial : List Char) (entries : List (List Char × ApiEntry α))
    (acc : List (List Char × α)) :
    gvfd_go serial entries acc ≠ .error .zhtk := by
  induction entries generalizing acc with
  | nil => simp [gvfd_go]
  | cons q rest ih =>
    obtain ⟨k, e⟩ := q
    cases hres : resolveEntry e with
    | error er =>
      cases e with
      | single d => simp [resolveEntry] at hres
      | multi l =>
        cases l with
        | nil =>
          simp only [resolveEntry, Except.error.injEq] at hres
          simp [gvfd_go, resolveEntry, ← hres]
        | cons d ds => simp [resolveEntry] at hres
    | ok ed =>
      obtain ⟨vval, vvec⟩ := ed
      simp only [gvfd_go, hres]
      cases vval with
      | none => cases vvec <;> simp [ih]
      | some lv =>
        cases lv with
        | nil => simp
        | cons v t => cases vvec <;> simp [ih]

theorem gvfd_go_mem (serial : List Char) (entries : List (List Char × ApiEntry α)) :
    ∀ (acc m : List (List Char × α)), gvfd_go serial entries acc = .ok m →
      ∀ p ∈ m, p ∈ acc ∨ goodPair serial entries p := by
  induction entries with
  | nil =>
    intro acc m h p hp
    simp only [gvfd_go, Except.ok.injEq] at h
    exact Or.inl (h ▸ hp)
  | cons q rest ih =>
    obtain ⟨k, e⟩ := q
    intro acc m h p hp
    cases hres : resolveEntry e with
    | error er => simp [gvfd_go, hres] at h
    | ok ed =>
      obtain ⟨vval, vvec⟩ := ed
      simp only [gvfd_go, hres] at h
      cases vval with
      | none =>
        cases vvec with
        | none =>
          simp only at h
          rcases ih acc m h p hp with hin | hg
          · exact Or.inl hin
          · exact Or.inr (goodPair_cons serial (k, e) rest p hg)
        | some w =>
          simp only at h
          rcases ih _ m h p hp with hin | hg
          · rcases dinsert_mem acc _ w p hin with hpe | hpa
            · refine Or.inr ⟨k, e, ⟨none, some w⟩, List.mem_cons_self _ _, hres, ?_, ?_⟩
              · rw [hpe]
              · right; rw [hpe]
            · exact Or.inl hpa
          · exact Or.inr (goodPair_cons serial (k, e) rest p hg)
      | some lv =>
        cases lv with
        | nil => simp only at h; exact absurd h (by simp)
        | cons v t =>
          cases vvec with
          | none =>
            simp only at h
            rcases ih _ m h p hp with hin | hg
            · rcases dinsert_mem acc _ v p hin with hpe | hpa
              · refine Or.inr ⟨k, e, ⟨some (v :: t), none⟩, List.mem_cons_self _ _, hres,
                  ?_, ?_⟩
                · rw [hpe]
                · left; exact ⟨t, by rw [hpe]⟩
              · exact Or.inl hpa
            · exact Or.inr (goodPair_cons serial (k, e) rest p hg)
          | some w =>
            simp only at h
            rcases ih _ m h p hp with hin | hg
            · rcases dinsert_mem (dinsert acc _ v) _ w p hin with hpe | hpa
              · refine Or.inr ⟨k, e, ⟨some (v :: t), some w⟩, List.mem_cons_self _ _, hres,
                  ?_, ?_⟩
                · rw [hpe]
                · right; rw [hpe]
              · rcases dinsert_mem acc _ v p hpa with hpe2 | hpa2
                · refine Or.inr ⟨k, e, ⟨some (v :: t), some w⟩, List.mem_cons_self _ _, hres,
                    ?_, ?_⟩
                  · rw [hpe2]
                  · left; exact ⟨t, by rw [hpe2]⟩
                · exact Or.inl hpa2
            · exact Or.inr (goodPair_cons serial (k, e) rest p hg)

/-- C4: `DeviceConnection._get_value_from_dict` raises
`ZHTKConnectionException` exactly when the vendor value is not a dict or is
an empty dict; on success every entry of the returned dict has the
substring `/{device serial}/` removed from its key, and its value is
`entry["value"][0]` when the entry carries a `value` key or
`entry["vector"]` when it carries a `vector` key (the first element being
taken first when the entry itself is a list). -/
theorem get_value_from_dict_spec {α : Type} (serial : List Char) (data : ApiData α) :
    (get_value_from_dict serial data = .error .zhtk ↔
      data = ApiData.notDict ∨ data = ApiData.dict []) ∧
    (∀ m, get_value_from_dict serial data = .ok m →
      ∀ p ∈ m, goodPair serial (entriesOf data) p) := by
  constructor
  · cases data with
    | notDict => simp [get_value_from_dict]
    | dict entries =>
      cases entries with
      | nil => simp [get_value_from_dict]
      | cons q rest =>
        simp only [get_value_from_dict]
        constructor
        · intro h
          exact absurd h (gvfd_go_ne_zhtk serial (q :: rest) [])
        · intro h
          rcases h with h | h <;> simp at h
  · intro m h p hp
    cases data with
    | notDict => simp [get_value_from_dict] at h
    | dict entries =>
      cases entries with
      | nil => simp [get_value_from_dict] at h
      | cons q rest =>
        rcases gvfd_go_mem serial (q :: rest) [] m h p hp with hin | hg
        · simp at hin
        · exact hg

theorem get_value_from_dict_spec_witness :
    get_value_from_dict (chars ("dev8030")) (ApiData.notDict : ApiData Int) = .error .zhtk ∧
    goodPair (chars ("dev8030"))
      (entriesOf (ApiData.dict [(chars ("/dev8030/sigouts/0/on"),
        ApiEntry.single (EntryDict.mk (some [(1 : Int)]) none))]))
      (chars ("sigouts/0/on"), (1 : Int)) :=
  ⟨(get_value_from_dict_spec (chars ("dev8030")) ApiData.notDict).1.mpr (Or.inl rfl),
   (get_value_from_dict_spec (chars ("dev8030"))
      (ApiData.dict [(chars ("/dev8030/sigouts/0/on"),
        ApiEntry.single (EntryDict.mk (some [(1 : Int)]) none))])).2
     [(chars ("sigouts/0/on"), (1 : Int))] (by rfl)
     (chars ("sigouts/0/on"), (1 : Int)) (by simp)⟩

theorem commands_to_node_append (serial : List Char) (xs ys : List (PyVal α)) :
    commands_to_node serial (xs ++ ys) =
      match commands_to_node serial xs with
      | .error er => .error er
      | .ok front =>
        match commands_to_node serial ys with
        | .error er => .error er
        | .ok back => .ok (front ++ back) := by
  induction xs with
  | nil =>
    simp only [List.nil_append, commands_to_node]
    cases commands_to_node serial ys <;> rfl
  | cons item rest ih =>
    cases item with
    | prim v => rfl
    | tuple elems =>
      match elems with
      | [] => rfl
      | [x] => rfl
      | [x, y] =>
        cases x with
        | str c =>
          simp only [List.cons_append, commands_to_node, List.append_eq, ih]
          cases command_to_node serial c with
          | none => rfl
          | some node =>
            cases commands_to_node serial rest with
            | error er => rfl
            | ok front =>
              cases commands_to_node serial ys <;> rfl
        | prim v => rfl
        | tuple l => rfl
      | x :: y :: z :: t => rfl
    | str s =>
      match s with
      | [] => rfl
      | [c1] => rfl
      | [c1, c2] =>
        simp only [List.cons_append, commands_to_node, List.append_eq, ih]
        cases command_to_node serial [c1] with
        | none => rfl
        | some node =>
          cases commands_to_node serial rest with
          | error er => rfl
          | ok front =>
            cases commands_to_node serial ys <;> rfl
      | c1 :: c2 :: c3 :: t => rfl

/-- C7: `DeviceConnection.set` parses its positional arguments so that
`set(n, v)` passes exactly the same translated settings list to the data
server as `set([(n, v)])`; a positional-argument count other than 1 or 2
raises `ZHTKConnectionException`; and an element of the settings list that
is not of length 2 (or has no length at all) raises
`ZHTKConnectionException` as soon as it is reached, i.e. whenever the
elements before it translate successfully. -/
theorem set_parses_arguments {α : Type} (serial : List Char) (a b : PyVal α) :
    set serial [a, b] = set serial [PyVal.tuple [PyVal.tuple [a, b]]] ∧
    (∀ args : List (PyVal α), args.length ≠ 1 → args.length ≠ 2 →
      set serial args = .error .zhtk) ∧
    (∀ (front : List (PyVal α)) (item : PyVal α) (rest : List (PyVal α))
        (res : List (List Char × PyVal α)),
      commands_to_node serial front = .ok res →
      pyLen item ≠ some 2 →
      set serial [PyVal.tuple (front ++ item :: rest)] = .error .zhtk) := by
  refine ⟨rfl, ?_, ?_⟩
  · intro args h1 h2
    match args with
    | [] => rfl
    | [x] => exact absurd rfl h1
    | [x, y] => exact absurd rfl h2
    | x :: y :: z :: t => rfl
  · intro front item rest res hfront hlen
    show commands_to_node serial (front ++ item :: rest) = .error .zhtk
    rw [commands_to_node_append, hfront]
    have : commands_to_node serial (item :: rest) = .error .zhtk := by
      cases item with
      | prim v => rfl
      | str s =>
        match s with
        | [] => rfl
        | [c1] => rfl
        | [c1, c2] => exact absurd rfl hlen
        | c1 :: c2 :: c3 :: t => rfl
      | tuple elems =>
        match elems with
        | [] => rfl
        | [x] => rfl
        | [x, y] => exact absurd rfl hlen
        | x :: y :: z :: t => rfl
    rw [this]

theorem set_parses_arguments_witness :
    set (chars ("dev8030")) [PyVal.str (chars ("sigouts/0/on")), PyVal.prim (1 : Int)] =
      set (chars ("dev8030"))
        [PyVal.tuple [PyVal.tuple [PyVal.str (chars ("sigouts/0/on")), PyVal.prim (1 : Int)]]] ∧
    set (chars ("dev8030")) ([] : List (PyVal Int)) = .error .zhtk ∧
    set (chars ("dev8030"))
      [PyVal.tuple [PyVal.tuple [PyVal.str (chars ("sigouts/0/on")), PyVal.prim (1 : Int)],
        PyVal.prim (2 : Int)]] = .error .zhtk :=
  ⟨(set_parses_arguments (chars ("dev8030")) (PyVal.str (chars ("sigouts/0/on")))
      (PyVal.prim (1 : Int))).1,
   (set_parses_arguments (chars ("dev8030")) (PyVal.prim (1 : Int))
      (PyVal.prim (1 : Int))).2.1 [] (by simp) (by simp),
   (set_parses_arguments (chars ("dev8030")) (PyVal.prim (1 : Int))
      (PyVal.prim (1 : Int))).2.2
     [PyVal.tuple [PyVal.str (chars ("sigouts/0/on")), PyVal.prim (1 : Int)]]
     (PyVal.prim (2 : Int)) []
     [(chars ("/dev8030/sigouts/0/on"), PyVal.prim (1 : Int))] (by rfl) (by simp [pyLen])⟩

/-- C6: for a UHFLI or MFLI device and a (non-empty) command string
containing `sample` case-insensitively, `DeviceConnection.get` fetches the
data through `ZIConnection.get_sample` — its result is exactly the
reshaping of the vendor `daq.getSample` response on the translated node —
and the reshaping returns the complex value
`data["x"][0] + 1j * data["y"][0]`, raising `ZHTKConnectionException` when
the returned data is not a dict, is empty, or lacks an `x` or `y` key. -/
theorem get_streaming_path {α : Type} (dev : Device) (conn : DConn α)
    (s : List Char) (vo : Bool)
    (hdev : dev.device_type = DeviceTypes.UHFLI ∨ dev.device_type = DeviceTypes.MFLI)
    (hsample : (chars ("sample")) <:+: s.map lowerChar)
    (hne : s ≠ [])
    (hest : conn.established = true) :
    ∃ node, command_to_node dev.serial s = some node ∧
      get dev conn (GetCmd.str s) vo =
        (match get_value_from_streamingnode (conn.sampleResp node) with
          | .error er => .error er
          | .ok z => .ok (GetResult.complex z)) ∧
      (∀ data, get_value_from_streamingnode data = .error .zhtk ↔
        (data = SampleData.notDict ∨ data = SampleData.dict [] ∨
          ∃ entries, data = SampleData.dict entries ∧
            (lookupD entries (chars ("x")) = none ∨
              lookupD entries (chars ("y")) = none))) ∧
      (∀ entries (x : ℚ) xs (y : ℚ) ys,
        lookupD entries (chars ("x")) = some (x :: xs) →
        lookupD entries (chars ("y")) = some (y :: ys) →
        entries ≠ [] →
        get_value_from_streamingnode (SampleData.dict entries) =
          .ok (GaussianQ.add (GaussianQ.ofRat x)
            (GaussianQ.mul GaussianQ.jay (GaussianQ.ofRat y)))) := by
  obtain ⟨node, hnode⟩ : ∃ r, command_to_node dev.serial s = some r := by
    cases s with
    | nil => exact absurd rfl hne
    | cons a as => exact ⟨_, rfl⟩
  refine ⟨node, hnode, ?_, ?_, ?_⟩
  · simp only [get, nodeStringOf, hnode, streamCheckOf, if_pos hdev,
      decide_eq_true hsample, if_true, DConn.get_sample, hest]
  · intro data
    cases data with
    | notDict => simp [get_value_from_streamingnode]
    | dict entries =>
      cases entries with
      | nil => simp [get_value_from_streamingnode]
      | cons q rest =>
        cases hx : lookupD (q :: rest) (chars ("x")) with
        | none => simp [get_value_from_streamingnode, hx]
        | some xs =>
          cases hy : lookupD (q :: rest) (chars ("y")) with
          | none => simp [get_value_from_streamingnode, hx, hy]
          | some ys =>
            cases xs with
            | nil => simp [get_value_from_streamingnode, hx, hy]
            | cons x xt =>
              cases ys with
              | nil => simp [get_value_from_streamingnode, hx, hy]
              | cons y yt => simp [get_value_from_streamingnode, hx, hy]
  · intro entries x xs y ys hx hy hne'
    cases entries with
    | nil => exact absurd rfl hne'
    | cons q rest => simp [get_value_from_streamingnode, hx, hy]

theorem get_streaming_path_witness :
    get (Device.mk (chars ("dev1234")) DeviceTypes.UHFLI)
      (DConn.mk true
        (fun _ => SampleData.dict [(chars ("x"), [(3 : ℚ)]), (chars ("y"), [4])])
        (fun _ => (ApiData.notDict : ApiData ℚ)))
      (GetCmd.str (chars ("demods/0/sample"))) true =
      .ok (GetResult.complex (GaussianQ.add (GaussianQ.ofRat 3)
        (GaussianQ.mul GaussianQ.jay (GaussianQ.ofRat 4)))) ∧
    GaussianQ.add (GaussianQ.ofRat 3) (GaussianQ.mul GaussianQ.jay (GaussianQ.ofRat 4)) =
      GaussianQ.mk 3 4 := by
  constructor
  · obtain ⟨node, hnode, heq, hiff, hok⟩ :=
      get_streaming_path (Device.mk (chars ("dev1234")) DeviceTypes.UHFLI)
        (DConn.mk true
          (fun _ => SampleData.dict [(chars ("x"), [(3 : ℚ)]), (chars ("y"), [4])])
          (fun _ => (ApiData.notDict : ApiData ℚ)))
        (chars ("demods/0/sample")) true
        (Or.inl rfl) (by decide) (by decide) rfl
    rw [heq]
    rfl
  · simp [GaussianQ.add, GaussianQ.mul, GaussianQ.ofRat, GaussianQ.jay]

/-- C8: for a successful non-streaming `DeviceConnection.get`, the result
shape depends on the number of returned nodes: with `valueonly=True` a
reshaped dictionary of exactly one entry yields the bare value and one of
more than one entry yields the list of all values; with `valueonly=False`
the reshaped dictionary itself is returned. -/
theorem get_result_shape {α : Type} (dev : Device) (conn : DConn α) (cmd : GetCmd)
    (node : List Char) (m : List (List Char × α))
    (hnode : nodeStringOf dev.serial cmd = .ok node)
    (hstream : streamCheckOf dev cmd = .ok false)
    (hest : conn.established = true)
    (hdata : get_value_from_dict dev.serial (conn.getResp node) = .ok m) :
    (∀ p, m = [p] → get dev conn cmd true = .ok (GetResult.value p.2)) ∧
    (1 < m.length → get dev conn cmd true = .ok (GetResult.values (m.map Prod.snd))) ∧
    get dev conn cmd false = .ok (GetResult.dict m) := by
  refine ⟨?_, ?_, ?_⟩
  · intro p hm
    subst hm
    simp [get, hnode, hstream, DConn.getData, hest, hdata]
  · intro hlen
    simp [get, hnode, hstream, DConn.getData, hest, hdata, hlen]
  · simp [get, hnode, hstream, DConn.getData, hest, hdata]

theorem get_result_shape_witness :
    get (Device.mk (chars ("dev8030")) DeviceTypes.HDAWG)
      (DConn.mk true (fun _ => SampleData.notDict)
        (fun _ => ApiData.dict
          [(chars ("/dev8030/sigouts/0/on"),
            ApiEntry.single (EntryDict.mk (some [(1 : Int)]) none)),
           (chars ("/dev8030/sigouts/1/on"),
            ApiEntry.single (EntryDict.mk (some [(0 : Int)]) none))]))
      (GetCmd.str (chars ("sigouts/*/on"))) true =
      .ok (GetResult.values [(1 : Int), 0]) ∧
    get (Device.mk (chars ("dev8030")) DeviceTypes.HDAWG)
      (DConn.mk true (fun _ => SampleData.notDict)
        (fun _ => ApiData.dict
          [(chars ("/dev8030/sigouts/0/on"),
            ApiEntry.single (EntryDict.mk (some [(1 : Int)]) none)),
           (chars ("/dev8030/sigouts/1/on"),
            ApiEntry.single (EntryDict.mk (some [(0 : Int)]) none))]))
      (GetCmd.str (chars ("sigouts/*/on"))) false =
      .ok (GetResult.dict [(chars ("sigouts/0/on"), (1 : Int)),
        (chars ("sigouts/1/on"), 0)]) := by
  have h := get_result_shape (Device.mk (chars ("dev8030")) DeviceTypes.HDAWG)
    (DConn.mk true (fun _ => SampleData.notDict)
      (fun _ => ApiData.dict
        [(chars ("/dev8030/sigouts/0/on"),
          ApiEntry.single (EntryDict.mk (some [(1 : Int)]) none)),
         (chars ("/dev8030/sigouts/1/on"),
          ApiEntry.single (EntryDict.mk (some [(0 : Int)]) none))]))
    (GetCmd.str (chars ("sigouts/*/on")))
    (chars ("/dev8030/sigouts/*/on"))
    [(chars ("sigouts/0/on"), (1 : Int)), (chars ("sigouts/1/on"), 0)]
    (by rfl) (by rfl) rfl (by rfl)
  exact ⟨h.2.1 (by decide), h.2.2⟩

end DeviceConnection

end ZhinstToolkit
